import Mathlib

/-!
Shallow embedding of the resilient fetch & caching pipeline of the
`anime_backend` repository: the per-host cookie jar and scrape-health
metrics (`src/http/scrapeMetrics.ts`), the token-bucket rate limiter
(`src/http/rateLimiter.ts`), the fetch retry state machine
(`fetchResponse`), the `serverCache` middleware, and the
`getFinalUrls` batch resolver (`src/services/dataFetcher.ts`).
JavaScript `Map`s are modelled as insertion-ordered association lists,
numbers as `Nat`/`Int`/`Rat`, and the async control flow of
`fetchResponse` as a deterministic step machine over a logical tick
clock.
-/

/-! ## Cookie jar (`buildCookieHeader`, `storeCookies`) -/

/-- JavaScript `Map.set` modelled on as an insertion-ordered
association list: an existing key keeps its position and gets the new
value; a new key is appended at the end. -/
def mapSet (m : List (String × String)) (k v : String) : List (String × String) :=
  match m with
  | [] => [(k, v)]
  | (k', v') :: rest =>
    if k' = k then (k', v) :: rest else (k', v') :: mapSet rest k v

/-- JavaScript `String.prototype.split` with a one-character separator
(the code only splits on `";"` and `"="`), character-level and
structurally recursive. `"".split(c) = [""]` and separators at the
ends produce empty fields, as in JavaScript. -/
def splitOnChar (c : Char) : List Char → List (List Char)
  | [] => [[]]
  | x :: xs =>
    if x = c then [] :: splitOnChar c xs
    else
      match splitOnChar c xs with
      | [] => [[x]]
      | g :: gs => (x :: g) :: gs

/-- The split `s.split(c)` as strings. -/
def jsSplit (c : Char) (s : String) : List String :=
  (splitOnChar c s.data).map fun l => ⟨l⟩

/-- JavaScript `s.trim()`; the surrounding whitespace occurring in this pipeline
is the plain space character. -/
def jsTrim (s : String) : String :=
  ⟨((s.data.dropWhile (· = ' ')).reverse.dropWhile (· = ' ')).reverse⟩

/-- Parse one raw cookie string `"k=v; k2=v2"` the way the `append`
closure inside `buildCookieHeader` does: split on `";"`, trim, drop
empty parts, split each part on `"="` taking the first token as the
name (skipped when empty) and the `"="`-rejoined remainder as the
value. -/
def parseCookieString (s : String) : List (String × String) :=
  ((jsSplit ';' s).map jsTrim).filter (· ≠ "") |>.filterMap fun part =>
    match jsSplit '=' part with
    | [] => none
    | name :: rest => if name = "" then none else some (name, String.intercalate "=" rest)

/-- Truthiness of the optional `override` argument (`undefined` and the
empty string are falsy). -/
def overrideTruthy : Option String → Bool
  | none => false
  | some s => s ≠ ""

/-- The `cookieMap` built inside `buildCookieHeader`: stored entries
inserted first, then (when the override is truthy) the parsed override
entries on top. -/
def mergedCookieMap (stored : List (String × String)) (override : Option String) :
    List (String × String) :=
  let base := stored.foldl (fun m kv => mapSet m kv.1 kv.2) []
  match override with
  | some s => if s ≠ "" then (parseCookieString s).foldl (fun m kv => mapSet m kv.1 kv.2) base
              else base
  | none => base

/-- The function `buildCookieHeader(host, override?)` from `scrapeMetrics.ts`
(fetcher part), with the host's stored map passed explicitly. Returns
`none` for JavaScript `undefined`. -/
def buildCookieHeader (stored : List (String × String)) (override : Option String) :
    Option String :=
  if overrideTruthy override = false ∧ stored = [] then none
  else
    let m := mergedCookieMap stored override
    if m = [] then none
    else some (String.intercalate "; " (m.map fun kv => kv.1 ++ "=" ++ kv.2))

/-- The function `storeCookies(host, response)` reduced to its per-cookie upsert:
for each raw `Set-Cookie` string, take the part before the first `";"`,
trim it, split on `"="`, and `set` name → value, skipping empty names.
The host's stored map is passed and returned explicitly. -/
def storeCookiesList (cookies : List String) (store : List (String × String)) :
    List (String × String) :=
  cookies.foldl
    (fun st cookie =>
      match jsSplit ';' cookie with
      | [] => st
      | pair :: _ =>
        match jsSplit '=' (jsTrim pair) with
        | [] => st
        | name :: rest =>
          if name = "" then st else mapSet st name (String.intercalate "=" rest))
    store

/-! ## Scrape health metrics (`scrapeMetrics.ts`) -/

/-- The `ScrapeHealth` record. Timestamps are logical clock values. -/
structure ScrapeHealth where
  lastSuccess : Option Nat := none
  lastError : Option (Nat × Option Nat × String × Option String) := none
  consecutiveFailures : Nat := 0
deriving Repr, DecidableEq

/-- The module-level `metrics` map, site → health. -/
abbrev Metrics := List (String × ScrapeHealth)

/-- Read half of `getOrCreate(site)`: the stored entry or a fresh one. -/
def metricsGet (m : Metrics) (site : String) : ScrapeHealth :=
  match m.lookup site with
  | some h => h
  | none => {}

/-- Write `site → h` into the metrics map (insertion-ordered upsert). -/
def metricsSet (m : Metrics) (site : String) (h : ScrapeHealth) : Metrics :=
  match m with
  | [] => [(site, h)]
  | (s, h') :: rest =>
    if s = site then (s, h) :: rest else (s, h') :: metricsSet rest site h

/-- Update of `recordScrapeSuccess(site)` at time `now`. The function
is exported by `scrapeMetrics.ts` but has no call site anywhere in the
repository; in particular the fetcher's ok path does not call it. -/
def recordScrapeSuccess (m : Metrics) (site : String) (now : Nat) : Metrics :=
  let e := metricsGet m site
  metricsSet m site { e with lastSuccess := some now, consecutiveFailures := 0 }

/-- Update of `recordScrapeFailure(site, error)` at time `now`. -/
def recordScrapeFailure (m : Metrics) (site : String) (now : Nat)
    (status : Option Nat) (message : String) (url : Option String) : Metrics :=
  let e := metricsGet m site
  metricsSet m site
    { e with lastError := some (now, status, message, url),
             consecutiveFailures := e.consecutiveFailures + 1 }

/-! ## Token-bucket rate limiter (`rateLimiter.ts`) -/

/-- One per-host bucket `{tokens, last}`. Numbers are rationals (ideal
arithmetic for the JS floats), timestamps in milliseconds. -/
structure Bucket where
  tokens : ℚ
  last : ℚ
deriving Repr, DecidableEq

/-- The refill step at the top of `limit`: `delta = (now - last)/1000`;
`tokens = min(burst, tokens + delta*rps)`; `last = now`. A host with no
bucket yet starts from `{tokens: burst, last: now}`. -/
def refillBucket (rps burst : ℚ) (st : Option Bucket) (now : ℚ) : Bucket :=
  let b := st.getD ⟨burst, now⟩
  ⟨min burst (b.tokens + (now - b.last) / 1000 * rps), now⟩

/-- One call of `limit({host, rps, burst})` for one host. `st` is the host's map
entry (`none` when absent). The refilled bucket persists only when the
host was already in the map (the code mutates the map's object in
place and calls `buckets.set` only on the consume path). On
`tokens < 1` the caller sleeps `waitSeconds * 1000` ms and the
procedure re-runs; `extras` supplies the scheduler's extra delay
(`≥ 0`) added on each wake-up. Returns the final map entry and the
time at which the call returns; `none` when `fuel` runs out. -/
def limitRun (rps burst : ℚ) :
    Nat → Option Bucket → ℚ → List ℚ → Option (Option Bucket × ℚ)
  | 0, _, _, _ => none
  | fuel + 1, st, now, extras =>
    let b := refillBucket rps burst st now
    let st' := if st.isSome then some b else none
    if b.tokens < 1 then
      limitRun rps burst fuel st' (now + (1 - b.tokens) / rps * 1000 + extras.headD 0)
        extras.tail
    else
      some (some { b with tokens := b.tokens - 1 }, now)

/-- A sequence of `limit` calls against one host: each call starts
`gap ≥ 0` ms after the previous call returned, with its own wake-up
extras. Returns the final map entry and the last return time. -/
def runCalls (rps burst : ℚ) (fuel : Nat) :
    List (ℚ × List ℚ) → Option Bucket → ℚ → Option (Option Bucket × ℚ)
  | [], st, t => some (st, t)
  | (gap, extras) :: rest, st, t =>
    match limitRun rps burst fuel st (t + gap) extras with
    | none => none
    | some (st', rt) => runCalls rps burst fuel rest st' rt

/-- Bucket invariant at time `t`: when the host has a bucket, its token
count lies in `[0, burst]` and its `last` stamp is not in the future. -/
def BucketInv (burst t : ℚ) : Option Bucket → Prop
  | none => True
  | some b => 0 ≤ b.tokens ∧ b.tokens ≤ burst ∧ b.last ≤ t

/-! ## `serverCache` middleware and the spec-modelled cache container -/

/-- Modelled from the spec: the `@libs/lruCache` module (`cache`,
`defaultTTL`) is code of this repository that is not under `src/`;
only its caller (the cache middleware) is. Per the spec, the default
TTL is 1 minute when unspecified. -/
def defaultTTL : Nat := 60000

/-- A parsed JSON body as seen by the caching guard: its JavaScript
truthiness, whether `typeof` is `"object"`, the truthiness of its
`ok` field, and an opaque payload identity. -/
structure JVal where
  truthy : Bool
  isObject : Bool
  okTruthy : Bool
  payload : String
deriving Repr, DecidableEq

/-- A value stored in (or served from) the cache: a parsed JSON body
or a text body. -/
inductive CVal where
  | jsonV (j : JVal)
  | textV (s : String)
deriving Repr, DecidableEq

/-- JavaScript truthiness of a cached value (`if (cachedData)`):
objects are as truthy as they were; a string is truthy iff nonempty. -/
def cvalTruthy : CVal → Bool
  | .jsonV j => j.truthy
  | .textV s => s ≠ ""

/-- Modelled from the spec: cache entries are `{key, value, expiresAt}`.
LRU size-eviction is not modelled (no claim depends on it). -/
abbrev CacheState := List (String × CVal × Nat)

/-- Modelled from the spec: `cache.get(key)` returns the stored value
when `now < expiresAt`, and misses otherwise. -/
def cacheGet (st : CacheState) (key : String) (now : Nat) : Option CVal :=
  match st.lookup key with
  | some (v, exp) => if now < exp then some v else none
  | none => none

/-- Modelled from the spec: `cache.set(key, value, {ttl})` stores
`{key, value, expiresAt: now + ttl}` (insertion-ordered upsert). -/
def cacheSet (st : CacheState) (key : String) (v : CVal) (ttl now : Nat) : CacheState :=
  match st with
  | [] => [(key, v, now + ttl)]
  | (k, e) :: rest =>
    if k = key then (k, v, now + ttl) :: rest else (k, e) :: cacheSet rest key v ttl now

/-- The downstream handler's response as the middleware observes it:
HTTP status, the JSON parse of the body (`none` = parse failure), and
the text read of the body (`none` = read failure). -/
structure DownResp where
  status : Nat
  jsonBody : Option JVal
  textBody : Option String
deriving Repr, DecidableEq

/-- The middleware's `responseType` parameter. -/
inductive RespType where
  | json
  | text
deriving Repr, DecidableEq

/-- What the middleware returns for the request. -/
inductive ServeResult where
  | hitJson (j : JVal)
  | hitText (s : String)
  | pass (r : DownResp)
deriving Repr, DecidableEq

/-- Result of one `serverCache` invocation: the cache state afterwards,
what was served, and how many times the downstream handler ran. -/
structure ServeOut where
  state : CacheState
  result : ServeResult
  downCalls : Nat
deriving Repr, DecidableEq

/-- Computation `newTTL = ttl ? 1000 * 60 * ttl : defaultTTL` (note `ttl = 0` is
falsy and also selects the default). -/
def serverCacheTTL : Option Nat → Nat
  | some m => if m = 0 then defaultTTL else 1000 * 60 * m
  | none => defaultTTL

/-- The cache state after the miss path of `serverCache`: when
`c.res.status < 399`, for `"json"` store the parsed body only when it
is a truthy object with a truthy `ok`; for `"text"` store any
successfully read body; otherwise leave the cache unchanged. -/
def serverCacheMissState (ttlMin : Option Nat) (rt : RespType) (st : CacheState)
    (now : Nat) (key : String) (down : DownResp) : CacheState :=
  if down.status < 399 then
    match rt with
    | .json =>
      match down.jsonBody with
      | some j =>
        if j.truthy && j.isObject && j.okTruthy then
          cacheSet st key (.jsonV j) (serverCacheTTL ttlMin) now
        else st
      | none => st
    | .text =>
      match down.textBody with
      | some s => cacheSet st key (.textV s) (serverCacheTTL ttlMin) now
      | none => st
  else st

/-- One invocation of the `serverCache(ttl?, responseType)` middleware
from `src/middlewares/cache.ts` on a request with cache key `key` at
time `now`, where the downstream handler would produce `down`.
Mirrors: truthy cached value → serve it (json for objects, text for
strings) without calling downstream; otherwise run downstream and
store per the miss path. -/
def serverCache (ttlMin : Option Nat) (rt : RespType) (st : CacheState)
    (now : Nat) (key : String) (down : DownResp) : ServeOut :=
  let miss : ServeOut := ⟨serverCacheMissState ttlMin rt st now key down, .pass down, 1⟩
  match cacheGet st key now with
  | some v =>
    if cvalTruthy v then
      match v with
      | .jsonV j => ⟨st, .hitJson j, 0⟩
      | .textV s => ⟨st, .hitText s, 0⟩
    else miss
  | none => miss

/-! ## The fetch retry state machine (`fetchResponse`) -/

/-- Membership in `RETRY_STATUS`, the set 403, 429, 500, 502, 503, 504. -/
def retryStatus (s : Nat) : Bool :=
  s == 403 || s == 429 || s == 500 || s == 502 || s == 503 || s == 504

/-- Whether `Response.ok` holds: status in `[200, 300)`. -/
def respOk (s : Nat) : Bool :=
  200 ≤ s && s < 300

/-- JavaScript error values flowing through `fetchResponse`'s catch:
an `AbortError` `DOMException` (timeout or abort reason), a
`FetchFailedError` (attempt, status, url, site, message), a
`ScraperError` (message, status, site, url, cause), or any other
rejection value (name, message, optional numeric `status`). -/
inductive ErrVal where
  | domAbort (msg : String)
  | fetchFailed (attempt status : Nat) (url site msg : String)
  | scraper (msg : String) (status : Option Nat) (site url : String) (cause : Option ErrVal)
  | generic (name msg : String) (status : Option Nat)
deriving Repr

/-- The `error.name` field. -/
def errName : ErrVal → String
  | .domAbort _ => "AbortError"
  | .fetchFailed .. => "FetchFailedError"
  | .scraper .. => "ScraperError"
  | .generic n _ _ => n

/-- The numeric status probe the catch performs on the error value. -/
def errStatusField : ErrVal → Option Nat
  | .domAbort _ => none
  | .fetchFailed _ s _ _ _ => some s
  | .scraper _ st _ _ _ => st
  | .generic _ _ st => st

/-- The `error.message` field (every modelled value is an `Error`). -/
def errMsg : ErrVal → String
  | .domAbort m => m
  | .fetchFailed _ _ _ _ m => m
  | .scraper m _ _ _ _ => m
  | .generic _ m _ => m

/-- The test `error instanceof FetchFailedError`. -/
def isFFE : ErrVal → Bool
  | .fetchFailed .. => true
  | _ => false

/-- What one underlying `fetch` call does on a given attempt, absent
external abort: resolve with a response (status and its `Set-Cookie`
strings), or reject (network error; timeouts reject with an
`AbortError` `DOMException`). -/
inductive UpstreamResult where
  | resp (status : Nat) (setCookies : List String)
  | reject (e : ErrVal)

/-- Which backoff branch slept: retryable status (`500·2^(n-1)`),
`AbortError` (`300·2^(n-1)`), or retryable caught error
(`600·2^(n-1)`). -/
inductive SleepKind where
  | statusBackoff
  | abortBackoff
  | errorBackoff
deriving Repr, DecidableEq

/-- Awaited operations of one `fetchResponse` call, each stamped with
the logical tick at which it starts (each awaited operation occupies
one tick). -/
inductive Ev where
  | acquire (tick : Nat)
  | fetchAttempt (attempt tick : Nat)
  | sleep (kind : SleepKind) (attempt tick : Nat)
deriving Repr, DecidableEq

/-- Final outcome of a `fetchResponse` call. -/
inductive FetchResult where
  | ok (status : Nat)
  | thrown (e : ErrVal)
deriving Repr

/-- Configuration of one `fetchResponse` call: retry budget, the
upstream's behavior per attempt, the tick (if any) at which the
external abort signal fires, and the request identity. -/
structure FetchCfg where
  maxRetries : Nat
  upstream : Nat → UpstreamResult
  abortTick : Option Nat
  url : String
  host : String
  site : Option String

/-- The site key `site ?? host`. -/
def FetchCfg.siteKey (cfg : FetchCfg) : String :=
  cfg.site.getD cfg.host

/-- Everything observable about one finished `fetchResponse` call:
result, trace of awaited operations, final health metrics, the host's
final cookie store, the tick at which the call finished, and (on
success) the winning attempt with its `Set-Cookie` strings. -/
structure FetchOut where
  result : FetchResult
  trace : List Ev
  metrics : Metrics
  store : List (String × String)
  endTick : Nat
  okInfo : Option (Nat × List String)

/-- The message of the `FetchFailedError` built for a non-ok status. -/
def mkFailMsg (status : Nat) : String :=
  "Fetch failed with status " ++ toString status

/-- Whether `signal.aborted` is observed at the start of tick `t`: the abort
fired at a strictly earlier tick. -/
def isAborted (abortTick : Option Nat) (t : Nat) : Bool :=
  match abortTick with
  | some a => a < t
  | none => false

/-- Classification done by the `catch` block: retry with the
`AbortError` backoff when `error.name === "AbortError"` and budget
remains; retry with the error backoff when budget remains and the
error is a `FetchFailedError` or carries a retryable status
(`RETRY_STATUS.has(status ?? 0)`); otherwise fatal. -/
def catchClassify (maxRetries attempt : Nat) (e : ErrVal) : Option SleepKind :=
  if errName e = "AbortError" ∧ attempt ≤ maxRetries then some .abortBackoff
  else if attempt ≤ maxRetries ∧ (isFFE e = true ∨ retryStatus ((errStatusField e).getD 0) = true)
    then some .errorBackoff
  else none

/-- The body of `fetchResponse`'s `while (true)` loop, fuel-indexed.
Each iteration: `attempt += 1`; await `limit` (one tick); if the
external signal already aborted, throw `ScraperError("Request
aborted")` (no health record — this throw is outside the `try`);
otherwise run `fetch` for one tick (an abort firing during that tick
cancels the attempt, turning it into an `AbortError` rejection).
A retryable status within budget sleeps the status backoff and
continues. A non-ok status constructs `FetchFailedError`, records a
scrape failure, and falls into the catch. An ok status stores cookies
and returns — the source's ok path is `storeCookies(host, response);
return response;` with no health record (`recordScrapeSuccess` has no
call site in the repository). The catch either sleeps its backoff and
continues, or records a scrape failure and throws a `ScraperError`
wrapping the caught error as `cause`. -/
def fetchLoop (cfg : FetchCfg) :
    Nat → Nat → Nat → Metrics → List (String × String) → List Ev → Option FetchOut
  | 0, _, _, _, _, _ => none
  | fuel + 1, attempt0, tick0, m, store, tr =>
    let attempt := attempt0 + 1
    let tr1 := tr ++ [Ev.acquire tick0]
    let tick1 := tick0 + 1
    if isAborted cfg.abortTick tick1 then
      some ⟨.thrown (.scraper "Request aborted" none cfg.siteKey cfg.url none),
            tr1, m, store, tick1, none⟩
    else
      let effect :=
        if cfg.abortTick = some tick1 then
          UpstreamResult.reject (.domAbort "The operation was aborted")
        else cfg.upstream attempt
      let tr2 := tr1 ++ [Ev.fetchAttempt attempt tick1]
      let tick2 := tick1 + 1
      let handleCatch := fun (m' : Metrics) (e : ErrVal) =>
        match catchClassify cfg.maxRetries attempt e with
        | some kind =>
          fetchLoop cfg fuel attempt (tick2 + 1) m' store
            (tr2 ++ [Ev.sleep kind attempt tick2])
        | none =>
          let msg := errMsg e
          let st := errStatusField e
          some ⟨.thrown (.scraper msg st cfg.siteKey cfg.url (some e)),
                tr2, recordScrapeFailure m' cfg.siteKey tick2 st msg (some cfg.url),
                store, tick2, none⟩
      match effect with
      | .resp status cookies =>
        if retryStatus status = true ∧ attempt ≤ cfg.maxRetries then
          fetchLoop cfg fuel attempt (tick2 + 1) m store
            (tr2 ++ [Ev.sleep .statusBackoff attempt tick2])
        else if respOk status then
          some ⟨.ok status, tr2, m,
                storeCookiesList cookies store, tick2, some (attempt, cookies)⟩
        else
          let msg := mkFailMsg status
          handleCatch (recordScrapeFailure m cfg.siteKey tick2 (some status) msg (some cfg.url))
            (.fetchFailed attempt status cfg.url cfg.siteKey msg)
      | .reject e => handleCatch m e

/-- One full `fetchResponse` call, starting from health metrics `m0`
and cookie store `store0`. `maxRetries + 1` iterations of fuel always
suffice, since every `continue` requires `attempt ≤ maxRetries`. -/
def fetchRun (cfg : FetchCfg) (m0 : Metrics) (store0 : List (String × String)) :
    Option FetchOut :=
  fetchLoop cfg (cfg.maxRetries + 1) 0 0 m0 store0 []

/-- Number of `fetch` attempts in a trace. -/
def countFetch (tr : List Ev) : Nat :=
  tr.countP fun ev =>
    match ev with
    | .fetchAttempt .. => true
    | _ => false

/-- The `error.name` of the final outcome (`"ok"` for success). -/
def resultName : FetchResult → String
  | .ok _ => "ok"
  | .thrown e => errName e

/-- The attempt number carried by the `FetchFailedError` that the
final error wraps as its `cause`, when it wraps one. -/
def resultCauseAttempt : FetchResult → Option Nat
  | .thrown (.scraper _ _ _ _ (some (.fetchFailed a _ _ _ _))) => some a
  | .thrown (.fetchFailed a _ _ _ _) => some a
  | _ => none

/-! ## `getFinalUrls` batch resolver (`dataFetcher.ts`) -/

/-- The retry loop inside `retryRequest`: `k` attempts remain, the
current one is `attempt`. A successful `getFinalUrl` fulfills with its
value; on failure the last attempt (`attempt === retries`, i.e.
`k = 0` remaining afterwards) rethrows, earlier ones sleep `delay` and
continue. Exhausting the loop (only possible when `retries = 0`)
fulfills with `undefined` (`Except.ok none`). -/
def retryRequestGo (outcome : Nat → Except Unit String) :
    Nat → Nat → Except Unit (Option String)
  | 0, _ => .ok none
  | k + 1, attempt =>
    match outcome attempt with
    | .ok v => .ok (some v)
    | .error e => if k = 0 then .error e else retryRequestGo outcome k (attempt + 1)

/-- The inner `retryRequest(url)` of `getFinalUrls`, with the per-attempt
outcomes of `getFinalUrl(url, ref, config)` abstracted as `outcome`. -/
def retryRequest (outcome : Nat → Except Unit String) (retries : Nat) :
    Except Unit (Option String) :=
  retryRequestGo outcome retries 1

/-- The value `getFinalUrls` puts at a URL's position:
`Promise.allSettled` maps a fulfilled `retryRequest` to its value and
a rejected one to the empty string. -/
def resolveOne (outcome : Nat → Except Unit String) (retries : Nat) : Option String :=
  match retryRequest outcome retries with
  | .ok v => v
  | .error _ => some ""

/-- The batch `getFinalUrls(urls, ref, config)`: per-URL retry wrappers run
independently, `Promise.allSettled` collects them in order, and the
final map turns rejections into `""`. `beh url attempt` is the outcome
of `getFinalUrl(url, ref, axiosConfig)` on that attempt. -/
def getFinalUrls (urls : List String) (beh : String → Nat → Except Unit String)
    (retries : Nat) : List (Option String) :=
  urls.map fun u => resolveOne (beh u) retries

/-! ## Concrete scenarios -/

/-- A fetch call against an upstream that always answers 503, with
`maxRetries = 2`. -/
def cfg503 : FetchCfg :=
  ⟨2, fun _ => .resp 503 [], none, "https://x.test/a", "x.test", none⟩

/-- A fetch call against an upstream that always answers 404, with
`maxRetries = 2`. -/
def cfg404 : FetchCfg :=
  ⟨2, fun _ => .resp 404 [], none, "https://x.test/a", "x.test", none⟩

/-- A fetch call against an upstream that always answers 404, with
`maxRetries = 1`. -/
def cfg404m1 : FetchCfg :=
  ⟨1, fun _ => .resp 404 [], none, "https://x.test/a", "x.test", none⟩

/-- A fetch call whose external abort signal fires during the first
attempt's in-flight `fetch` (tick 1); the upstream would answer 200. -/
def cfgAbort : FetchCfg :=
  ⟨2, fun _ => .resp 200 [], some 1, "https://x.test/a", "x.test", none⟩

/-- A fetch call whose first attempt answers 503 and whose external
abort signal fires during the backoff sleep after it (tick 2). -/
def cfgAbortSleep : FetchCfg :=
  ⟨2, fun n => if n = 1 then .resp 503 [] else .resp 200 [], some 2,
   "https://x.test/a", "x.test", none⟩

/-- A fetch call whose first attempt succeeds with 200 and one
`Set-Cookie` header. -/
def cfgOk : FetchCfg :=
  ⟨3, fun _ => .resp 200 ["sid=abc; Path=/"], none, "https://x.test/a", "x.test", some "x"⟩

/-- What a truthy cache hit serves: `c.json` for stored objects,
`c.text` for stored strings. -/
def hitOf : CVal → ServeResult
  | .jsonV j => .hitJson j
  | .textV s => .hitText s

/-- The request misses the cache: no live entry, or a live entry whose
value is falsy (the `if (cachedData)` check fails). -/
def cacheMissFor (st : CacheState) (key : String) (now : Nat) : Prop :=
  ∀ v, cacheGet st key now = some v → cvalTruthy v = false

/-! ## Helper lemmas -/

/-- The last value bound to `k` in a list of insertions. -/
def lastValue (k : String) : List (String × String) → Option String
  | [] => none
  | kv :: rest =>
    match lastValue k rest with
    | some v => some v
    | none => if kv.1 = k then some kv.2 else none

theorem lookup_mapSet_self (m : List (String × String)) (k v : String) :
    (mapSet m k v).lookup k = some v := by
  induction m with
  | nil => simp [mapSet, List.lookup]
  | cons kv rest ih =>
    obtain ⟨k', v'⟩ := kv
    by_cases h : k' = k
    · simp [mapSet, h, List.lookup]
    · have hbe : (k == k') = false := beq_eq_false_iff_ne.mpr (Ne.symm h)
      simp [mapSet, h, List.lookup, hbe, ih]

theorem lookup_mapSet_ne (m : List (String × String)) (k v k' : String) (h : k' ≠ k) :
    (mapSet m k v).lookup k' = m.lookup k' := by
  have hbe : (k' == k) = false := beq_eq_false_iff_ne.mpr h
  induction m with
  | nil => simp [mapSet, List.lookup, hbe]
  | cons kv rest ih =>
    obtain ⟨k0, v0⟩ := kv
    by_cases h0 : k0 = k
    · subst h0
      simp [mapSet, List.lookup, hbe]
    · simp [mapSet, h0, List.lookup, ih]

theorem lookup_foldl_mapSet (l : List (String × String)) (init : List (String × String))
    (k : String) :
    (l.foldl (fun m kv => mapSet m kv.1 kv.2) init).lookup k =
      match lastValue k l with
      | some v => some v
      | none => init.lookup k := by
  induction l generalizing init with
  | nil => simp [lastValue]
  | cons kv rest ih =>
    simp only [List.foldl_cons, lastValue, ih (mapSet init kv.1 kv.2)]
    cases hlv : lastValue k rest with
    | some v => simp
    | none =>
      by_cases h : kv.1 = k
      · subst h
        simp [lookup_mapSet_self]
      · simp [h, lookup_mapSet_ne init kv.1 kv.2 k (Ne.symm h)]

/-! ## Claim C8: `buildCookieHeader` -/

/-- C8: for every stored cookie state and override string,
`buildCookieHeader` is deterministic (identical stored state and
identical override yield the identical result); on a cookie-name
collision the override's value replaces the stored value (the merged
map binds the name to the override's last value for it); the result is
`undefined` exactly when the merged map is empty, and otherwise it is
the `"name=value"` pairs joined with `"; "`. -/
theorem buildCookieHeader_spec (stored : List (String × String)) (ov n v : String)
    (hov : ov ≠ "") (hlast : lastValue n (parseCookieString ov) = some v) :
    (∀ stored2 ov2, stored = stored2 → ov = ov2 →
        buildCookieHeader stored (some ov) = buildCookieHeader stored2 (some ov2)) ∧
    (buildCookieHeader stored (some ov) = none ↔ mergedCookieMap stored (some ov) = []) ∧
    (mergedCookieMap stored (some ov)).lookup n = some v ∧
    (mergedCookieMap stored (some ov) ≠ [] →
        buildCookieHeader stored (some ov) = some (String.intercalate "; "
          ((mergedCookieMap stored (some ov)).map fun kv => kv.1 ++ "=" ++ kv.2))) := by
  have htru : overrideTruthy (some ov) = true := by
    simp [overrideTruthy, hov]
  refine ⟨?_, ?_, ?_, ?_⟩
  · intro stored2 ov2 h1 h2
    subst h1
    subst h2
    rfl
  · rw [buildCookieHeader]
    rw [if_neg (by simp [htru])]
    by_cases hm : mergedCookieMap stored (some ov) = []
    · simp [hm]
    · simp [hm]
  · have hmm : mergedCookieMap stored (some ov)
        = (parseCookieString ov).foldl (fun m kv => mapSet m kv.1 kv.2)
            (stored.foldl (fun m kv => mapSet m kv.1 kv.2) []) := by
      rw [mergedCookieMap]
      simp [hov]
    rw [hmm, lookup_foldl_mapSet, hlast]
  · intro hm
    rw [buildCookieHeader]
    rw [if_neg (by simp [htru])]
    simp [hm]

/-- Witness for C8 at a concrete collision: stored `a=1`, override
`a=2`. -/
theorem buildCookieHeader_spec_witness :
    ("a=2" ≠ "" ∧ lastValue "a" (parseCookieString "a=2") = some "2") ∧
    (mergedCookieMap [("a", "1")] (some "a=2")).lookup "a" = some "2" ∧
    buildCookieHeader [("a", "1")] (some "a=2") = some "a=2" := by
  refine ⟨⟨by decide, by decide⟩,
    (buildCookieHeader_spec [("a", "1")] "a=2" "a" "2" (by decide) (by decide)).2.2.1, ?_⟩
  have h := (buildCookieHeader_spec [("a", "1")] "a=2" "a" "2" (by decide)
    (by decide)).2.2.2 (by decide)
  rw [h]
  decide

/-! ## Claim C9: `getFinalUrls` -/

/-- If every attempt from `a` through `a + k` fails, the retry loop
with `k + 1` attempts remaining rethrows the last failure. -/
theorem retryRequestGo_allFail (outcome : Nat → Except Unit String) :
    ∀ k a, (∀ j, a ≤ j → j ≤ a + k → outcome j = .error ()) →
      retryRequestGo outcome (k + 1) a = .error () := by
  intro k
  induction k with
  | zero =>
    intro a h
    rw [retryRequestGo, h a (Nat.le_refl a) (by omega)]
    simp
  | succ k ih =>
    intro a h
    rw [retryRequestGo, h a (Nat.le_refl a) (by omega)]
    simp only [Nat.succ_ne_zero, if_neg, ite_false]
    exact ih (a + 1) fun j h1 h2 => h j (by omega) (by omega)

/-- With at least one attempt allowed, a URL all of whose attempts fail
resolves to the empty-string placeholder. -/
theorem resolveOne_allFail (outcome : Nat → Except Unit String) (retries : Nat)
    (hr : 1 ≤ retries) (h : ∀ a, 1 ≤ a → a ≤ retries → outcome a = .error ()) :
    resolveOne outcome retries = some "" := by
  obtain ⟨k, rfl⟩ : ∃ k, retries = k + 1 := ⟨retries - 1, by omega⟩
  rw [resolveOne, retryRequest,
    retryRequestGo_allFail outcome k 1 fun j hj1 hj2 => h j hj1 (by omega)]

/-- C9: for every input list of URLs (and per-URL attempt behavior,
with `retries ≥ 1`), `getFinalUrls` returns a list of the same length
in the same order; each position depends only on that URL's own
attempts (so one URL's failure cannot abort the batch or change the
others); and a URL whose every attempt fails yields the empty
string. -/
theorem getFinalUrls_spec (urls : List String)
    (beh : String → Nat → Except Unit String) (retries : Nat) (hr : 1 ≤ retries) :
    (getFinalUrls urls beh retries).length = urls.length ∧
    (∀ i : Nat, (getFinalUrls urls beh retries)[i]? =
        (urls[i]?).map fun u => resolveOne (beh u) retries) ∧
    (∀ (i : Nat) (u : String), urls[i]? = some u →
      (∀ a, 1 ≤ a → a ≤ retries → beh u a = .error ()) →
      (getFinalUrls urls beh retries)[i]? = some (some "")) := by
  refine ⟨by simp [getFinalUrls], fun i => by simp [getFinalUrls], ?_⟩
  intro i u hu hfail
  simp [getFinalUrls, hu, resolveOne_allFail (beh u) retries hr hfail]

/-- Witness for C9: the spec's scenario — `urlA` redirects to `urlB`
on its first attempt, `urlC` always fails, `retries = 1` — yields
`["urlB", ""]`: one success, one empty-string placeholder, batch not
aborted. -/
theorem getFinalUrls_spec_witness :
    (1 : Nat) ≤ 1 ∧
    (getFinalUrls ["urlA", "urlC"]
        (fun u _ => if u = "urlA" then .ok "urlB" else .error ()) 1)[1]? =
      some (some "") ∧
    getFinalUrls ["urlA", "urlC"]
        (fun u _ => if u = "urlA" then .ok "urlB" else .error ()) 1 =
      [some "urlB", some ""] := by
  refine ⟨Nat.le_refl 1, ?_, by decide⟩
  exact (getFinalUrls_spec ["urlA", "urlC"]
      (fun u _ => if u = "urlA" then .ok "urlB" else .error ()) 1 (Nat.le_refl 1)).2.2
    1 "urlC" (by decide) (fun a _ _ => rfl)

/-! ## Claims C3 and C5: `serverCache` -/

theorem cacheGet_cacheSet_self (st : CacheState) (key : String) (v : CVal)
    (ttl now now2 : Nat) :
    cacheGet (cacheSet st key v ttl now) key now2 =
      if now2 < now + ttl then some v else none := by
  induction st with
  | nil => simp [cacheSet, cacheGet, List.lookup]
  | cons kv rest ih =>
    obtain ⟨k, e⟩ := kv
    by_cases h : k = key
    · subst h
      simp [cacheSet, cacheGet, List.lookup]
    · have hbe : (key == k) = false := beq_eq_false_iff_ne.mpr (Ne.symm h)
      simp only [cacheSet, if_neg h, cacheGet, List.lookup, hbe] at ih ⊢
      exact ih

/-- A truthy live entry short-circuits the middleware. -/
theorem serverCache_hit (ttlMin : Option Nat) (rt : RespType) (st : CacheState)
    (now : Nat) (key : String) (d : DownResp) (v : CVal)
    (hget : cacheGet st key now = some v) (ht : cvalTruthy v = true) :
    serverCache ttlMin rt st now key d = ⟨st, hitOf v, 0⟩ := by
  rw [serverCache]
  simp only [hget, ht]
  cases v <;> simp [hitOf]

/-- A request that misses (no live entry, or a falsy one) runs the
downstream handler once and stores per the miss path. -/
theorem serverCache_miss (ttlMin : Option Nat) (rt : RespType) (st : CacheState)
    (now : Nat) (key : String) (d : DownResp) (hmiss : cacheMissFor st key now) :
    serverCache ttlMin rt st now key d =
      ⟨serverCacheMissState ttlMin rt st now key d, .pass d, 1⟩ := by
  rw [serverCache]
  cases hget : cacheGet st key now with
  | none => simp
  | some v =>
    have hf : cvalTruthy v = false := hmiss v hget
    simp [hf]

/-- C3 counterexample: with `responseType = "text"`, a downstream
result that is a plain text body — carrying no `ok === true` flag at
all — with HTTP status 200 (below 400) IS stored in the cache,
contradicting the claim that such a result is never cached. -/
theorem serverCache_text_counterexample :
    (serverCache (some 5) .text [] 0 "/k" ⟨200, none, some "hello"⟩).state
      = [("/k", CVal.textV "hello", 300000)] := by
  decide

/-- C3 amended: for `responseType = "json"`, an entry is stored
only when the downstream payload is explicitly successful (a truthy
object whose `ok` is truthy) and the status is below 399. For
`responseType = "text"`, however, any response with status below 399
whose body reads successfully is cached, with no `ok` check. -/
theorem serverCache_store_policy (ttlMin : Option Nat) (st : CacheState) (now : Nat)
    (key : String) (d : DownResp) :
    ((serverCache ttlMin .json st now key d).state = st ∨
      ∃ j : JVal, d.jsonBody = some j ∧ j.truthy = true ∧ j.isObject = true ∧
        j.okTruthy = true ∧ d.status < 399 ∧
        (serverCache ttlMin .json st now key d).state
          = cacheSet st key (.jsonV j) (serverCacheTTL ttlMin) now) ∧
    (cacheMissFor st key now → d.status < 399 → ∀ s : String, d.textBody = some s →
      (serverCache ttlMin .text st now key d).state
        = cacheSet st key (.textV s) (serverCacheTTL ttlMin) now) := by
  constructor
  · by_cases hm : cacheMissFor st key now
    · rw [serverCache_miss ttlMin .json st now key d hm]
      rw [serverCacheMissState]
      by_cases hs : d.status < 399
      · rw [if_pos hs]
        cases hj : d.jsonBody with
        | none => exact Or.inl rfl
        | some j =>
          by_cases hg : (j.truthy && j.isObject && j.okTruthy) = true
          · refine Or.inr ⟨j, rfl, ?_, ?_, ?_, hs, by simp [hg]⟩ <;>
              simp only [Bool.and_eq_true] at hg
            · exact hg.1.1
            · exact hg.1.2
            · exact hg.2
          · simp [hg]
      · rw [if_neg hs]
        exact Or.inl rfl
    · left
      rw [cacheMissFor] at hm
      push_neg at hm
      obtain ⟨v, hget, ht⟩ := hm
      rw [serverCache_hit ttlMin .json st now key d v hget (by simpa using ht)]
  · intro hm hs s hb
    rw [serverCache_miss ttlMin .text st now key d hm]
    simp [serverCacheMissState, hs, hb]

/-- Witness for C3's amended theorem: an explicitly-ok json payload is
stored; a text body is stored with no ok check. -/
theorem serverCache_store_policy_witness :
    ((serverCache none .json [] 0 "/k" ⟨200, some ⟨true, true, true, "p"⟩, none⟩).state = [] ∨
      ∃ j : JVal, (some (⟨true, true, true, "p"⟩ : JVal)) = some j ∧ j.truthy = true ∧
        j.isObject = true ∧ j.okTruthy = true ∧ 200 < 399 ∧
        (serverCache none .json [] 0 "/k" ⟨200, some ⟨true, true, true, "p"⟩, none⟩).state
          = cacheSet [] "/k" (.jsonV j) (serverCacheTTL none) 0) ∧
    (serverCache none .text [] 0 "/k" ⟨200, none, some "hello"⟩).state
      = cacheSet [] "/k" (.textV "hello") (serverCacheTTL none) 0 := by
  constructor
  · exact (serverCache_store_policy none [] 0 "/k" ⟨200, some ⟨true, true, true, "p"⟩, none⟩).1
  · exact (serverCache_store_policy none [] 0 "/k" ⟨200, none, some "hello"⟩).2
      (fun v h => by simp [cacheGet, List.lookup] at h) (by decide) "hello" rfl

/-- C5 counterexample: the entry for `/k` is live (`now = 0 <
expiresAt = 100`) but holds the empty text body, which is falsy; the
middleware treats the request as a miss and invokes the downstream
handler once — not zero times — contradicting the claim. -/
theorem serverCache_hit_counterexample :
    cacheGet [("/k", CVal.textV "", 100)] "/k" 0 = some (CVal.textV "") ∧
    (serverCache none .text [("/k", CVal.textV "", 100)] 0 "/k"
        ⟨200, none, some "z"⟩).downCalls = 1 := by
  decide

/-- C5 amended: a live entry with a truthy stored value (any
cached json object, or a nonempty cached text body) is returned as-is
with zero downstream invocations and no cache change; and after a miss
whose json payload is explicitly successful is cached, an identical
request within the TTL is served that identical payload with zero
downstream invocations. -/
theorem serverCache_hit_spec (ttlMin : Option Nat) (rt : RespType) (st : CacheState)
    (now : Nat) (key : String) (d : DownResp) :
    (∀ v, cacheGet st key now = some v → cvalTruthy v = true →
        serverCache ttlMin rt st now key d = ⟨st, hitOf v, 0⟩) ∧
    (∀ (j : JVal) (d2 : DownResp) (now2 : Nat),
        cacheMissFor st key now →
        d.jsonBody = some j → j.truthy = true → j.isObject = true → j.okTruthy = true →
        d.status < 399 → now2 < now + serverCacheTTL ttlMin →
        serverCache ttlMin .json ((serverCache ttlMin .json st now key d).state) now2 key d2
          = ⟨(serverCache ttlMin .json st now key d).state, .hitJson j, 0⟩) := by
  constructor
  · intro v hget ht
    exact serverCache_hit ttlMin rt st now key d v hget ht
  · intro j d2 now2 hm hj htr hob hok hs hlt
    have hstate : (serverCache ttlMin .json st now key d).state
        = cacheSet st key (.jsonV j) (serverCacheTTL ttlMin) now := by
      rw [serverCache_miss ttlMin .json st now key d hm]
      simp [serverCacheMissState, hs, hj, htr, hob, hok]
    rw [hstate]
    have hget2 : cacheGet (cacheSet st key (.jsonV j) (serverCacheTTL ttlMin) now) key now2
        = some (.jsonV j) := by
      rw [cacheGet_cacheSet_self]
      rw [if_pos hlt]
    exact serverCache_hit ttlMin .json _ now2 key d2 (.jsonV j) hget2 (by simp [cvalTruthy, htr])

/-- Witness for C5's amended theorem: a cached ok payload is served on
an identical request one tick later with zero downstream calls. -/
theorem serverCache_hit_spec_witness :
    serverCache none .json
        ((serverCache none .json [] 0 "/k" ⟨200, some ⟨true, true, true, "p"⟩, none⟩).state)
        1 "/k" ⟨500, none, none⟩
      = ⟨(serverCache none .json [] 0 "/k" ⟨200, some ⟨true, true, true, "p"⟩, none⟩).state,
          .hitJson ⟨true, true, true, "p"⟩, 0⟩ := by
  exact (serverCache_hit_spec none .json [] 0 "/k"
      ⟨200, some ⟨true, true, true, "p"⟩, none⟩).2
    ⟨true, true, true, "p"⟩ ⟨500, none, none⟩ 1
    (fun v h => by simp [cacheGet, List.lookup] at h)
    rfl rfl rfl rfl (by decide) (by decide)

/-! ## Claim C7: rate limiter -/

/-- The invariant is monotone in the time bound. -/
theorem BucketInv_mono (burst t t' : ℚ) (st : Option Bucket) (h : t ≤ t')
    (hinv : BucketInv burst t st) : BucketInv burst t' st := by
  cases st with
  | none => trivial
  | some b => exact ⟨hinv.1, hinv.2.1, le_trans hinv.2.2 h⟩

/-- The call `limit` never returns before the time at which it was entered. -/
theorem limitRun_le_rt (rps burst : ℚ) (hrps : 0 < rps) :
    ∀ (fuel : Nat) (st : Option Bucket) (now : ℚ) (extras : List ℚ)
      (st' : Option Bucket) (rt : ℚ),
      (∀ e ∈ extras, 0 ≤ e) →
      limitRun rps burst fuel st now extras = some (st', rt) → now ≤ rt := by
  intro fuel
  induction fuel with
  | zero =>
    intro st now extras st' rt _ h
    simp [limitRun] at h
  | succ fuel ih =>
    intro st now extras st' rt hex h
    simp only [limitRun] at h
    by_cases hb : (refillBucket rps burst st now).tokens < 1
    · rw [if_pos hb] at h
      have hstep : now ≤ now + (1 - (refillBucket rps burst st now).tokens) / rps * 1000
          + extras.headD 0 := by
        have h1 : 0 ≤ (1 - (refillBucket rps burst st now).tokens) / rps * 1000 := by
          have : 0 ≤ 1 - (refillBucket rps burst st now).tokens := by linarith
          have := div_nonneg this (le_of_lt hrps)
          linarith
        have h2 : 0 ≤ extras.headD 0 := by
          cases extras with
          | nil => simp
          | cons e es => exact hex e (List.mem_cons_self e es)
        linarith
      exact le_trans hstep (ih _ _ _ _ _ (fun e he => hex e (List.mem_of_mem_tail he)) h)
    · rw [if_neg hb] at h
      simp only [Option.some.injEq, Prod.mk.injEq] at h
      exact le_of_eq h.2

/-- Refill keeps the token count inside `[0, burst]` and stamps `last`
with the entry time. -/
theorem refillBucket_bounds (rps burst : ℚ) (hrps : 0 < rps) (hburst : 0 ≤ burst)
    (st : Option Bucket) (now : ℚ) (hinv : BucketInv burst now st) :
    0 ≤ (refillBucket rps burst st now).tokens ∧
    (refillBucket rps burst st now).tokens ≤ burst ∧
    (refillBucket rps burst st now).last = now := by
  refine ⟨?_, min_le_left _ _, rfl⟩
  cases st with
  | none =>
    simp only [refillBucket, Option.getD]
    have hz : (now - now) / 1000 * rps = 0 := by ring
    refine le_min hburst ?_
    simp [hz, hburst]
  | some b =>
    obtain ⟨h1, h2, h3⟩ := hinv
    refine le_min hburst ?_
    have hd : 0 ≤ (now - b.last) / 1000 := by
      have : (0 : ℚ) ≤ now - b.last := by linarith
      positivity
    have := mul_nonneg hd (le_of_lt hrps)
    simp only [refillBucket, Option.getD]
    linarith

/-- Each `limit` call preserves the bucket invariant. -/
theorem limitRun_inv (rps burst : ℚ) (hrps : 0 < rps) (hburst : 0 ≤ burst) :
    ∀ (fuel : Nat) (st : Option Bucket) (now : ℚ) (extras : List ℚ)
      (st' : Option Bucket) (rt : ℚ),
      (∀ e ∈ extras, 0 ≤ e) → BucketInv burst now st →
      limitRun rps burst fuel st now extras = some (st', rt) →
      BucketInv burst rt st' := by
  intro fuel
  induction fuel with
  | zero =>
    intro st now extras st' rt _ _ h
    simp [limitRun] at h
  | succ fuel ih =>
    intro st now extras st' rt hex hinv h
    obtain ⟨hb0, hb1, hb2⟩ := refillBucket_bounds rps burst hrps hburst st now hinv
    simp only [limitRun] at h
    by_cases hb : (refillBucket rps burst st now).tokens < 1
    · rw [if_pos hb] at h
      have hnow2 : now ≤ now + (1 - (refillBucket rps burst st now).tokens) / rps * 1000
          + extras.headD 0 := by
        have h1 : 0 ≤ (1 - (refillBucket rps burst st now).tokens) / rps * 1000 := by
          have hp : 0 ≤ 1 - (refillBucket rps burst st now).tokens := by linarith
          have := div_nonneg hp (le_of_lt hrps)
          linarith
        have h2 : 0 ≤ extras.headD 0 := by
          cases extras with
          | nil => simp
          | cons e es => exact hex e (List.mem_cons_self e es)
        linarith
      refine ih _ _ _ _ _ (fun e he => hex e (List.mem_of_mem_tail he)) ?_ h
      by_cases hsome : st.isSome
      · rw [if_pos hsome]
        exact ⟨hb0, hb1, hb2 ▸ hnow2⟩
      · rw [if_neg hsome]
        trivial
    · rw [if_neg hb] at h
      simp only [Option.some.injEq, Prod.mk.injEq] at h
      rw [← h.1, ← h.2]
      refine ⟨?_, ?_, ?_⟩
      · show 0 ≤ (refillBucket rps burst st now).tokens - 1
        linarith
      · show (refillBucket rps burst st now).tokens - 1 ≤ burst
        linarith
      · show (refillBucket rps burst st now).last ≤ now
        rw [hb2]

/-- When the refilled token count is below 1, `limit` does not return
before the wait `(1 - tokens)/rps` seconds (in ms) has elapsed. -/
theorem limitRun_wait (rps burst : ℚ) (hrps : 0 < rps) :
    ∀ (fuel : Nat) (st : Option Bucket) (now : ℚ) (extras : List ℚ)
      (st' : Option Bucket) (rt : ℚ),
      (∀ e ∈ extras, 0 ≤ e) →
      limitRun rps burst fuel st now extras = some (st', rt) →
      (refillBucket rps burst st now).tokens < 1 →
      now + (1 - (refillBucket rps burst st now).tokens) / rps * 1000 ≤ rt := by
  intro fuel st now extras st' rt hex h hlt
  cases fuel with
  | zero => simp [limitRun] at h
  | succ fuel =>
    simp only [limitRun] at h
    rw [if_pos hlt] at h
    have hrest := limitRun_le_rt rps burst hrps fuel _ _ _ _ _
      (fun e he => hex e (List.mem_of_mem_tail he)) h
    have h2 : 0 ≤ extras.headD 0 := by
      cases extras with
      | nil => simp
      | cons e es => exact hex e (List.mem_cons_self e es)
    linarith

/-- The invariant holds after every prefix of a call sequence. -/
theorem runCalls_inv (rps burst : ℚ) (hrps : 0 < rps) (hburst : 0 ≤ burst) (fuel : Nat) :
    ∀ (calls : List (ℚ × List ℚ)) (st0 : Option Bucket) (t0 : ℚ)
      (stF : Option Bucket) (tF : ℚ),
      (∀ c ∈ calls, 0 ≤ c.1 ∧ ∀ e ∈ c.2, 0 ≤ e) →
      BucketInv burst t0 st0 →
      runCalls rps burst fuel calls st0 t0 = some (stF, tF) →
      BucketInv burst tF stF := by
  intro calls
  induction calls with
  | nil =>
    intro st0 t0 stF tF _ hinv h
    simp only [runCalls, Option.some.injEq, Prod.mk.injEq] at h
    rw [← h.1, ← h.2]
    exact hinv
  | cons c rest ih =>
    intro st0 t0 stF tF hc hinv h
    obtain ⟨gap, extras⟩ := c
    simp only [runCalls] at h
    cases hl : limitRun rps burst fuel st0 (t0 + gap) extras with
    | none => rw [hl] at h; simp at h
    | some p =>
      obtain ⟨st1, rt⟩ := p
      rw [hl] at h
      have hgap : (0 : ℚ) ≤ gap := (hc (gap, extras) (List.mem_cons_self _ _)).1
      have hinv1 : BucketInv burst (t0 + gap) st0 :=
        BucketInv_mono burst t0 (t0 + gap) st0 (by linarith) hinv
      have hinv2 := limitRun_inv rps burst hrps hburst fuel st0 (t0 + gap) extras st1 rt
        (hc (gap, extras) (List.mem_cons_self _ _)).2 hinv1 hl
      exact ih st1 rt stF tF (fun c hc' => hc c (List.mem_cons_of_mem _ hc')) hinv2 h

/-- C7: for every sequence of `limit` (acquire) calls on a host
(with `rps > 0`, `burst ≥ 0`, nonnegative inter-call gaps and wake-up
delays), the bucket's token count always satisfies
`0 ≤ tokens ≤ burst`; and whenever fewer than 1 token is available
after refill, `limit` does not return before a wait of
`(1 - tokens)/rps` seconds has elapsed. -/
theorem rateLimiter_spec (rps burst : ℚ) (hrps : 0 < rps) (hburst : 0 ≤ burst) :
    (∀ (fuel : Nat) (calls : List (ℚ × List ℚ)) (st0 : Option Bucket) (t0 : ℚ)
        (stF : Option Bucket) (tF : ℚ),
        (∀ c ∈ calls, 0 ≤ c.1 ∧ ∀ e ∈ c.2, 0 ≤ e) →
        BucketInv burst t0 st0 →
        runCalls rps burst fuel calls st0 t0 = some (stF, tF) →
        BucketInv burst tF stF) ∧
    (∀ (fuel : Nat) (st : Option Bucket) (now : ℚ) (extras : List ℚ)
        (st' : Option Bucket) (rt : ℚ),
        (∀ e ∈ extras, 0 ≤ e) →
        limitRun rps burst fuel st now extras = some (st', rt) →
        (refillBucket rps burst st now).tokens < 1 →
        now + (1 - (refillBucket rps burst st now).tokens) / rps * 1000 ≤ rt) :=
  ⟨fun fuel => runCalls_inv rps burst hrps hburst fuel,
   fun fuel => limitRun_wait rps burst hrps fuel⟩

/-- Witness for C7 with `rps = 1, burst = 2`: two back-to-back calls
leave the bucket at `tokens = 0 ∈ [0, 2]`, and a call entering with 0
refilled tokens does not return before 1000 ms of wait. -/
theorem rateLimiter_spec_witness :
    (0 : ℚ) < 1 ∧ (0 : ℚ) ≤ 2 ∧
    BucketInv 2 0 (some ⟨0, 0⟩) ∧
    ((0 : ℚ) + (1 - (refillBucket 1 2 (some ⟨0, 0⟩) 0).tokens) / 1 * 1000 ≤ 1000) := by
  refine ⟨one_pos, by norm_num, ?_, ?_⟩
  · refine (rateLimiter_spec 1 2 one_pos (by norm_num)).1 3 [(0, []), (0, [])] none 0
      (some ⟨0, 0⟩) 0 ?_ trivial ?_
    · intro c hc
      fin_cases hc <;> exact ⟨le_refl 0, fun e he => by simp at he⟩
    · norm_num [runCalls, limitRun, refillBucket, min_def]
  · refine (rateLimiter_spec 1 2 one_pos (by norm_num)).2 3 (some ⟨0, 0⟩) 0 []
      (some ⟨0, 1000⟩) 1000 (fun e he => by simp at he) ?_ ?_
    · norm_num [limitRun, refillBucket, min_def]
    · norm_num [refillBucket, min_def]

/-! ## Claims C1, C2, C4, C6, C10: the fetch state machine -/

theorem lookup_metricsSet_self (m : Metrics) (s : String) (h : ScrapeHealth) :
    (metricsSet m s h).lookup s = some h := by
  induction m with
  | nil => simp [metricsSet, List.lookup]
  | cons kv rest ih =>
    obtain ⟨s0, h0⟩ := kv
    by_cases he : s0 = s
    · simp [metricsSet, he, List.lookup]
    · have hbe : (s == s0) = false := beq_eq_false_iff_ne.mpr (Ne.symm he)
      simp [metricsSet, he, List.lookup, hbe, ih]

theorem metricsGet_metricsSet_self (m : Metrics) (s : String) (h : ScrapeHealth) :
    metricsGet (metricsSet m s h) s = h := by
  simp [metricsGet, lookup_metricsSet_self]

theorem metricsGet_recordScrapeFailure (m : Metrics) (s : String) (now : Nat)
    (status : Option Nat) (msg : String) (url : Option String) :
    metricsGet (recordScrapeFailure m s now status msg url) s =
      { lastSuccess := (metricsGet m s).lastSuccess,
        lastError := some (now, status, msg, url),
        consecutiveFailures := (metricsGet m s).consecutiveFailures + 1 } := by
  rw [recordScrapeFailure, metricsGet_metricsSet_self]

theorem metricsGet_recordScrapeSuccess (m : Metrics) (s : String) (now : Nat) :
    metricsGet (recordScrapeSuccess m s now) s =
      { lastSuccess := some now,
        lastError := (metricsGet m s).lastError,
        consecutiveFailures := 0 } := by
  rw [recordScrapeSuccess, metricsGet_metricsSet_self]

theorem countFetch_append (l1 l2 : List Ev) :
    countFetch (l1 ++ l2) = countFetch l1 + countFetch l2 :=
  List.countP_append _ _ _

/-- An upstream that always answers a fixed retryable non-ok status:
every attempt in budget sleeps the status backoff without touching the
health metrics; the terminal attempt constructs the
`FetchFailedError`, records one scrape failure, falls into the catch,
records a second, and throws the wrapping `ScraperError`. The run
makes exactly `fuel` further fetch attempts and raises the site's
`consecutiveFailures` by exactly 2. -/
theorem fetchLoop_const_retryable (cfg : FetchCfg) (st : Nat)
    (hup : ∀ n, cfg.upstream n = .resp st [])
    (hab : cfg.abortTick = none)
    (hret : retryStatus st = true) (hnok : respOk st = false) :
    ∀ (fuel a t : Nat) (m : Metrics) (s : List (String × String)) (tr : List Ev),
      1 ≤ fuel → a + fuel = cfg.maxRetries + 1 →
      ∃ out, fetchLoop cfg fuel a t m s tr = some out ∧
        countFetch out.trace = countFetch tr + fuel ∧
        out.result = .thrown (.scraper (mkFailMsg st) (some st) cfg.siteKey cfg.url
          (some (.fetchFailed (cfg.maxRetries + 1) st cfg.url cfg.siteKey (mkFailMsg st)))) ∧
        (metricsGet out.metrics cfg.siteKey).consecutiveFailures
          = (metricsGet m cfg.siteKey).consecutiveFailures + 2 ∧
        out.store = s := by
  intro fuel
  induction fuel with
  | zero =>
    intro a t m s tr h1 _
    exact absurd h1 (by omega)
  | succ fuel ih =>
    intro a t m s tr h1 hsum
    by_cases hterm : fuel = 0
    · subst hterm
      have ha : a = cfg.maxRetries := by omega
      have hnle : ¬ (a + 1 ≤ cfg.maxRetries) := by omega
      refine ⟨⟨.thrown (.scraper (mkFailMsg st) (some st) cfg.siteKey cfg.url
          (some (.fetchFailed (cfg.maxRetries + 1) st cfg.url cfg.siteKey (mkFailMsg st)))),
        tr ++ [Ev.acquire t, Ev.fetchAttempt (a + 1) (t + 1)],
        recordScrapeFailure
          (recordScrapeFailure m cfg.siteKey (t + 2) (some st) (mkFailMsg st) (some cfg.url))
          cfg.siteKey (t + 2) (some st) (mkFailMsg st) (some cfg.url),
        s, t + 2, none⟩, ?_, ?_, by simp [ha], ?_, rfl⟩
      · simp only [fetchLoop, hab, isAborted, hup, catchClassify, errName, errStatusField,
          errMsg, isFFE, hnok, hnle, ha]
        simp [hnok]
      · simp [countFetch_append, countFetch]
      · rw [metricsGet_recordScrapeFailure, metricsGet_recordScrapeFailure]
    · have hle : a + 1 ≤ cfg.maxRetries := by omega
      have hstep : fetchLoop cfg (fuel + 1) a t m s tr
          = fetchLoop cfg fuel (a + 1) (t + 3) m s
              (tr ++ [Ev.acquire t, Ev.fetchAttempt (a + 1) (t + 1),
                Ev.sleep .statusBackoff (a + 1) (t + 2)]) := by
        simp only [fetchLoop, hab, isAborted, hup, hret, hle]
        simp [hnok, hret, hle]
      obtain ⟨out, hrun, hcount, hres, hmet, hstore⟩ :=
        ih (a + 1) (t + 3) m s
          (tr ++ [Ev.acquire t, Ev.fetchAttempt (a + 1) (t + 1),
            Ev.sleep .statusBackoff (a + 1) (t + 2)]) (by omega) (by omega)
      refine ⟨out, hstep ▸ hrun, ?_, hres, hmet, hstore⟩
      rw [hcount, countFetch_append]
      simp [countFetch]
      omega

/-- An upstream that always answers a fixed non-retryable, non-ok
status (e.g. 404): every attempt constructs a `FetchFailedError` and
records one scrape failure; the catch then retries it anyway while
budget remains — because `error instanceof FetchFailedError` satisfies
the retry condition — and the terminal attempt records a second
failure and throws the wrapping `ScraperError`. The run makes exactly
`fuel` further fetch attempts and raises `consecutiveFailures` by
`fuel + 1`. -/
theorem fetchLoop_const_nonretryable (cfg : FetchCfg) (st : Nat)
    (hup : ∀ n, cfg.upstream n = .resp st [])
    (hab : cfg.abortTick = none)
    (hret : retryStatus st = false) (hnok : respOk st = false) :
    ∀ (fuel a t : Nat) (m : Metrics) (s : List (String × String)) (tr : List Ev),
      1 ≤ fuel → a + fuel = cfg.maxRetries + 1 →
      ∃ out, fetchLoop cfg fuel a t m s tr = some out ∧
        countFetch out.trace = countFetch tr + fuel ∧
        out.result = .thrown (.scraper (mkFailMsg st) (some st) cfg.siteKey cfg.url
          (some (.fetchFailed (cfg.maxRetries + 1) st cfg.url cfg.siteKey (mkFailMsg st)))) ∧
        (metricsGet out.metrics cfg.siteKey).consecutiveFailures
          = (metricsGet m cfg.siteKey).consecutiveFailures + fuel + 1 ∧
        out.store = s := by
  intro fuel
  induction fuel with
  | zero =>
    intro a t m s tr h1 _
    exact absurd h1 (by omega)
  | succ fuel ih =>
    intro a t m s tr h1 hsum
    by_cases hterm : fuel = 0
    · subst hterm
      have ha : a = cfg.maxRetries := by omega
      have hnle : ¬ (a + 1 ≤ cfg.maxRetries) := by omega
      refine ⟨⟨.thrown (.scraper (mkFailMsg st) (some st) cfg.siteKey cfg.url
          (some (.fetchFailed (cfg.maxRetries + 1) st cfg.url cfg.siteKey (mkFailMsg st)))),
        tr ++ [Ev.acquire t, Ev.fetchAttempt (a + 1) (t + 1)],
        recordScrapeFailure
          (recordScrapeFailure m cfg.siteKey (t + 2) (some st) (mkFailMsg st) (some cfg.url))
          cfg.siteKey (t + 2) (some st) (mkFailMsg st) (some cfg.url),
        s, t + 2, none⟩, ?_, ?_, by simp [ha], ?_, rfl⟩
      · simp only [fetchLoop, hab, isAborted, hup, catchClassify, errName, errStatusField,
          errMsg, isFFE, hnok, hret, hnle, ha]
        simp [hnok]
      · simp [countFetch_append, countFetch]
      · rw [metricsGet_recordScrapeFailure, metricsGet_recordScrapeFailure]
    · have hle : a + 1 ≤ cfg.maxRetries := by omega
      have hstep : fetchLoop cfg (fuel + 1) a t m s tr
          = fetchLoop cfg fuel (a + 1) (t + 3)
              (recordScrapeFailure m cfg.siteKey (t + 2) (some st) (mkFailMsg st) (some cfg.url))
              s
              (tr ++ [Ev.acquire t, Ev.fetchAttempt (a + 1) (t + 1),
                Ev.sleep .errorBackoff (a + 1) (t + 2)]) := by
        simp only [fetchLoop, hab, isAborted, hup, hret, hle, catchClassify, errName,
          errStatusField, errMsg, isFFE]
        simp [hnok, hret, hle]
      obtain ⟨out, hrun, hcount, hres, hmet, hstore⟩ :=
        ih (a + 1) (t + 3)
          (recordScrapeFailure m cfg.siteKey (t + 2) (some st) (mkFailMsg st) (some cfg.url)) s
          (tr ++ [Ev.acquire t, Ev.fetchAttempt (a + 1) (t + 1),
            Ev.sleep .errorBackoff (a + 1) (t + 2)]) (by omega) (by omega)
      refine ⟨out, hstep ▸ hrun, ?_, hres, ?_, hstore⟩
      · rw [hcount, countFetch_append]
        simp [countFetch]
        omega
      · rw [hmet, metricsGet_recordScrapeFailure]
        simp
        omega

/-- An error whose name is not `AbortError`, which is not a
`FetchFailedError`, and whose status (defaulting to 0) is outside the
retryable set, is fatal on the very first occurrence: one fetch
attempt, one failure record, and the wrapping `ScraperError` — for
any `maxRetries`. -/
theorem fetchRun_fatal_reject (cfg : FetchCfg) (e : ErrVal)
    (m0 : Metrics) (s0 : List (String × String))
    (hab : cfg.abortTick = none)
    (hup1 : cfg.upstream 1 = .reject e)
    (hname : errName e ≠ "AbortError")
    (hffe : isFFE e = false)
    (hst : retryStatus ((errStatusField e).getD 0) = false) :
    fetchRun cfg m0 s0 =
      some ⟨.thrown (.scraper (errMsg e) (errStatusField e) cfg.siteKey cfg.url (some e)),
        [Ev.acquire 0, Ev.fetchAttempt 1 1],
        recordScrapeFailure m0 cfg.siteKey 2 (errStatusField e) (errMsg e) (some cfg.url),
        s0, 2, none⟩ := by
  rw [fetchRun]
  simp only [fetchLoop, hab, isAborted, hup1, catchClassify, hffe, hst]
  simp [hname, hffe, hst]

/-- C1 counterexample: against an always-503 upstream with
`maxRetries = 2`, the call performs exactly 3 attempts, but the error
it raises is a `ScraperError` — the terminal `FetchFailedError` is
caught by the function's own `catch` and wrapped as the `cause` — so
the claim that the call raises `FetchFailedError` is false. -/
theorem fetch_retry_budget_counterexample :
    (fetchRun cfg503 [] []).map
        (fun o => (countFetch o.trace, resultName o.result, resultCauseAttempt o.result))
      = some (3, "ScraperError", some 3) ∧
    (fetchRun cfg503 [] []).map (fun o => resultName o.result) ≠ some "FetchFailedError" := by
  constructor
  · rfl
  · decide

/-- C1 amended: against an always-503 upstream with
`maxRetries = 2`, `fetchResponse` performs exactly 3 attempts; the
`FetchFailedError` with `attempt = 3` (and status, url, site) is
constructed on the terminal attempt, but the error that propagates is
a `ScraperError` carrying the status, url and site, with that
`FetchFailedError` as its `cause`. -/
theorem fetch_retry_budget_amended (url host : String) (site : Option String)
    (m0 : Metrics) (s0 : List (String × String)) :
    ∃ out, fetchRun ⟨2, fun _ => .resp 503 [], none, url, host, site⟩ m0 s0 = some out ∧
      countFetch out.trace = 3 ∧
      out.result = .thrown (.scraper (mkFailMsg 503) (some 503) (site.getD host) url
        (some (.fetchFailed 3 503 url (site.getD host) (mkFailMsg 503)))) := by
  obtain ⟨out, h1, h2, h3, -, -⟩ :=
    fetchLoop_const_retryable ⟨2, fun _ => .resp 503 [], none, url, host, site⟩ 503
      (fun _ => rfl) rfl rfl rfl 3 0 0 m0 s0 [] (by omega) rfl
  exact ⟨out, h1, by simpa [countFetch] using h2, h3⟩

/-- C2 counterexample: a 404 — outside the retryable status set and
not a timeout/network error — does NOT fail on first occurrence: with
`maxRetries = 2` the call performs 3 attempts, because the
`FetchFailedError` thrown for the 404 itself satisfies the catch's
retry condition (`error instanceof FetchFailedError`). -/
theorem fetch_nonretryable_counterexample :
    (fetchRun cfg404 [] []).map (fun o => countFetch o.trace) = some 3 ∧
    (fetchRun cfg404 [] []).map (fun o => countFetch o.trace) ≠ some 1 := by
  constructor
  · rfl
  · decide

/-- C2 amended: a non-ok status outside the retryable set (such
as 404) is retried like a retryable one — the `FetchFailedError`
constructed for it matches the catch's `error instanceof
FetchFailedError` condition — so the call performs `maxRetries + 1`
attempts before the wrapping `ScraperError` propagates. Only errors
that are neither `AbortError` nor `FetchFailedError` and whose status
(defaulting to 0) is outside the retryable set are fatal on first
occurrence. -/
theorem fetch_propagation_amended :
    (∀ (mr st : Nat) (url host : String) (site : Option String)
        (m0 : Metrics) (s0 : List (String × String)),
        retryStatus st = false → respOk st = false →
        ∃ out, fetchRun ⟨mr, fun _ => .resp st [], none, url, host, site⟩ m0 s0 = some out ∧
          countFetch out.trace = mr + 1 ∧
          out.result = .thrown (.scraper (mkFailMsg st) (some st) (site.getD host) url
            (some (.fetchFailed (mr + 1) st url (site.getD host) (mkFailMsg st))))) ∧
    (∀ (mr : Nat) (e : ErrVal) (url host : String) (site : Option String)
        (m0 : Metrics) (s0 : List (String × String)),
        errName e ≠ "AbortError" → isFFE e = false →
        retryStatus ((errStatusField e).getD 0) = false →
        fetchRun ⟨mr, fun _ => .reject e, none, url, host, site⟩ m0 s0 =
          some ⟨.thrown (.scraper (errMsg e) (errStatusField e) (site.getD host) url (some e)),
            [Ev.acquire 0, Ev.fetchAttempt 1 1],
            recordScrapeFailure m0 (site.getD host) 2 (errStatusField e) (errMsg e) (some url),
            s0, 2, none⟩) := by
  constructor
  · intro mr st url host site m0 s0 hret hnok
    obtain ⟨out, h1, h2, h3, -, -⟩ :=
      fetchLoop_const_nonretryable ⟨mr, fun _ => .resp st [], none, url, host, site⟩ st
        (fun _ => rfl) rfl hret hnok (mr + 1) 0 0 m0 s0 [] (by omega) (by simp)
    exact ⟨out, h1, by simpa [countFetch] using h2, h3⟩
  · intro mr e url host site m0 s0 hname hffe hst
    exact fetchRun_fatal_reject ⟨mr, fun _ => .reject e, none, url, host, site⟩ e m0 s0
      rfl rfl hname hffe hst

/-- Witness for C2's amended theorem: a 404 with `maxRetries = 1`
yields 2 attempts; a plain `TypeError` rejection is fatal on the first
attempt even with `maxRetries = 5`. -/
theorem fetch_propagation_amended_witness :
    (retryStatus 404 = false ∧ respOk 404 = false ∧
      ∃ out, fetchRun ⟨1, fun _ => .resp 404 [], none, "u", "h", none⟩ [] [] = some out ∧
        countFetch out.trace = 1 + 1 ∧
        out.result = .thrown (.scraper (mkFailMsg 404) (some 404) "h" "u"
          (some (.fetchFailed (1 + 1) 404 "u" "h" (mkFailMsg 404))))) ∧
    fetchRun ⟨5, fun _ => .reject (.generic "TypeError" "fetch failed" none), none,
        "u", "h", none⟩ [] [] =
      some ⟨.thrown (.scraper "fetch failed" none "h" "u"
          (some (.generic "TypeError" "fetch failed" none))),
        [Ev.acquire 0, Ev.fetchAttempt 1 1],
        recordScrapeFailure [] "h" 2 none "fetch failed" (some "u"),
        [], 2, none⟩ := by
  constructor
  · exact ⟨rfl, rfl,
      fetch_propagation_amended.1 1 404 "u" "h" none [] [] rfl rfl⟩
  · exact fetch_propagation_amended.2 5 (.generic "TypeError" "fetch failed" none)
      "u" "h" none [] [] (by decide) rfl rfl

/-- C10 counterexample: with an always-404 upstream and
`maxRetries = 1`, the failed logical fetch increases the site's
`consecutiveFailures` from 0 to 3, not 2: both non-terminal and
terminal non-ok attempts record at `FetchFailedError` construction,
and the terminal catch records once more. -/
theorem fetch_double_record_counterexample :
    (fetchRun cfg404m1 [] []).map
        (fun o => (metricsGet o.metrics "x.test").consecutiveFailures) = some 3 ∧
    (fetchRun cfg404m1 [] []).map
        (fun o => (metricsGet o.metrics "x.test").consecutiveFailures) ≠ some 2 := by
  constructor
  · rfl
  · decide

/-- C10 amended: for a fetch that terminates with a non-ok HTTP
status after the retry budget is spent, `recordScrapeFailure` runs
twice in the terminal attempt — once where the `FetchFailedError` is
constructed and once in the enclosing catch — so a call whose every
attempt yields a retryable non-ok status (burning the budget in the
status-backoff branch, which does not record) increases
`consecutiveFailures` by exactly 2. Non-terminal attempts with non-ok
statuses outside the retryable set each record one more failure, so
such runs increase the counter by more than 2. -/
theorem fetch_double_record_amended (mr st : Nat) (url host : String)
    (site : Option String) (m0 : Metrics) (s0 : List (String × String))
    (hret : retryStatus st = true) (hnok : respOk st = false) :
    ∃ out, fetchRun ⟨mr, fun _ => .resp st [], none, url, host, site⟩ m0 s0 = some out ∧
      out.result = .thrown (.scraper (mkFailMsg st) (some st) (site.getD host) url
        (some (.fetchFailed (mr + 1) st url (site.getD host) (mkFailMsg st)))) ∧
      (metricsGet out.metrics (site.getD host)).consecutiveFailures
        = (metricsGet m0 (site.getD host)).consecutiveFailures + 2 := by
  obtain ⟨out, h1, -, h3, h4, -⟩ :=
    fetchLoop_const_retryable ⟨mr, fun _ => .resp st [], none, url, host, site⟩ st
      (fun _ => rfl) rfl hret hnok (mr + 1) 0 0 m0 s0 [] (by omega) (by simp)
  exact ⟨out, h1, h3, h4⟩

/-- Witness for C10's amended theorem at `maxRetries = 2`, always-503:
`consecutiveFailures` rises by exactly 2. -/
theorem fetch_double_record_amended_witness :
    retryStatus 503 = true ∧ respOk 503 = false ∧
    ∃ out, fetchRun ⟨2, fun _ => .resp 503 [], none, "u", "h", none⟩ [] [] = some out ∧
      out.result = .thrown (.scraper (mkFailMsg 503) (some 503) "h" "u"
        (some (.fetchFailed (2 + 1) 503 "u" "h" (mkFailMsg 503)))) ∧
      (metricsGet out.metrics "h").consecutiveFailures
        = (metricsGet ([] : Metrics) "h").consecutiveFailures + 2 :=
  ⟨rfl, rfl, fetch_double_record_amended 2 503 "u" "h" none [] [] rfl rfl⟩

/-- With an external abort signal firing at tick `ab`, no `fetch`
attempt ever starts at a tick after `ab`: the pre-attempt
`signal.aborted` check throws before the next fetch. -/
theorem fetchLoop_no_fetch_after_abort (cfg : FetchCfg) (ab : Nat)
    (hab : cfg.abortTick = some ab) :
    ∀ (fuel a t : Nat) (m : Metrics) (s : List (String × String)) (tr : List Ev)
      (out : FetchOut),
      fetchLoop cfg fuel a t m s tr = some out →
      ∀ n tk, Ev.fetchAttempt n tk ∈ out.trace → Ev.fetchAttempt n tk ∈ tr ∨ tk ≤ ab := by
  intro fuel
  induction fuel with
  | zero =>
    intro a t m s tr out h
    simp [fetchLoop] at h
  | succ fuel ih =>
    intro a t m s tr out h n tk hmem
    simp only [fetchLoop] at h
    by_cases hd : isAborted cfg.abortTick (t + 1) = true
    · rw [if_pos hd] at h
      injection h with h'
      subst h'
      simp at hmem
      exact Or.inl hmem
    · rw [if_neg hd] at h
      have httle : t + 1 ≤ ab := by
        by_contra hlt
        exact hd (by simp [isAborted, hab]; omega)
      cases heff : (if cfg.abortTick = some (t + 1) then
          UpstreamResult.reject (ErrVal.domAbort "The operation was aborted")
        else cfg.upstream (a + 1)) with
      | resp status cookies =>
        rw [heff] at h
        dsimp only at h
        by_cases hr : retryStatus status = true ∧ a + 1 ≤ cfg.maxRetries
        · rw [if_pos hr] at h
          rcases ih _ _ _ _ _ _ h n tk hmem with h1 | h1
          · simp at h1
            rcases h1 with h1 | ⟨h1, h2⟩
            · exact Or.inl h1
            · exact Or.inr (by omega)
          · exact Or.inr h1
        · rw [if_neg hr] at h
          by_cases ho : respOk status = true
          · rw [if_pos ho] at h
            injection h with h'
            subst h'
            simp at hmem
            rcases hmem with h1 | ⟨h1, h2⟩
            · exact Or.inl h1
            · exact Or.inr (by omega)
          · rw [if_neg ho] at h
            cases hc : catchClassify cfg.maxRetries (a + 1)
                (.fetchFailed (a + 1) status cfg.url cfg.siteKey (mkFailMsg status)) with
            | some kind =>
              rw [hc] at h
              rcases ih _ _ _ _ _ _ h n tk hmem with h1 | h1
              · simp at h1
                rcases h1 with h1 | ⟨h1, h2⟩
                · exact Or.inl h1
                · exact Or.inr (by omega)
              · exact Or.inr h1
            | none =>
              rw [hc] at h
              injection h with h'
              subst h'
              simp at hmem
              rcases hmem with h1 | ⟨h1, h2⟩
              · exact Or.inl h1
              · exact Or.inr (by omega)
      | reject e =>
        rw [heff] at h
        dsimp only at h
        cases hc : catchClassify cfg.maxRetries (a + 1) e with
        | some kind =>
          rw [hc] at h
          rcases ih _ _ _ _ _ _ h n tk hmem with h1 | h1
          · simp at h1
            rcases h1 with h1 | ⟨h1, h2⟩
            · exact Or.inl h1
            · exact Or.inr (by omega)
          · exact Or.inr h1
        | none =>
          rw [hc] at h
          injection h with h'
          subst h'
          simp at hmem
          rcases hmem with h1 | ⟨h1, h2⟩
          · exact Or.inl h1
          · exact Or.inr (by omega)

/-- C4 counterexample: the abort signal fires during attempt 1's
in-flight fetch (tick 1). The call does cancel that attempt, but it
does not fail immediately: the catch treats the abort like a timeout,
sleeps the backoff (tick 2), and the next iteration acquires the rate
limiter once more (tick 3) before the pre-fetch `signal.aborted` check
throws `ScraperError("Request aborted")` at tick 4. -/
theorem fetch_abort_counterexample :
    cfgAbort.abortTick = some 1 ∧
    (fetchRun cfgAbort [] []).map (fun o => o.trace)
      = some [Ev.acquire 0, Ev.fetchAttempt 1 1, Ev.sleep .abortBackoff 1 2, Ev.acquire 3] ∧
    (fetchRun cfgAbort [] []).map (fun o => resultName o.result) = some "ScraperError" ∧
    (fetchRun cfgAbort [] []).map (fun o => o.endTick) = some 4 := by
  exact ⟨rfl, rfl, rfl, rfl⟩

/-- C4 amended: an external abort cancels the in-flight attempt,
and after the signal aborts no further fetch attempt is ever started
(every fetch attempt in the trace begins at a tick `≤` the abort
tick) — but the call does not fail immediately: the backoff sleep does
not observe the signal, so a pending backoff sleep runs to completion
and one more rate-limiter acquire occurs before the call raises
`ScraperError("Request aborted")`, as the concrete
abort-during-backoff-sleep run shows. -/
theorem fetch_abort_amended :
    (∀ (cfg : FetchCfg) (ab : Nat) (m0 : Metrics) (s0 : List (String × String))
        (out : FetchOut) (n tk : Nat),
        cfg.abortTick = some ab → fetchRun cfg m0 s0 = some out →
        Ev.fetchAttempt n tk ∈ out.trace → tk ≤ ab) ∧
    fetchRun cfgAbortSleep [] [] =
      some ⟨.thrown (.scraper "Request aborted" none "x.test" "https://x.test/a" none),
        [Ev.acquire 0, Ev.fetchAttempt 1 1, Ev.sleep .statusBackoff 1 2, Ev.acquire 3],
        [], [], 4, none⟩ := by
  constructor
  · intro cfg ab m0 s0 out n tk hab hrun hmem
    rcases fetchLoop_no_fetch_after_abort cfg ab hab _ 0 0 m0 s0 [] out hrun n tk hmem with
      h | h
    · simp at h
    · exact h
  · rfl

/-- Witness for C4's amended theorem: in the in-flight-abort run, the
single fetch attempt starts at tick 1 ≤ abort tick 1. -/
theorem fetch_abort_amended_witness :
    cfgAbort.abortTick = some 1 ∧ (1 : Nat) ≤ 1 :=
  ⟨rfl, fetch_abort_amended.1 cfgAbort 1 [] []
    ⟨.thrown (.scraper "Request aborted" none "x.test" "https://x.test/a" none),
      [Ev.acquire 0, Ev.fetchAttempt 1 1, Ev.sleep .abortBackoff 1 2, Ev.acquire 3],
      [], [], 4, none⟩ 1 1 rfl rfl (by decide)⟩

/-- A run that returns an ok response did so from some attempt `n`
whose upstream answer was that response; before returning, the fetcher
stored the response's cookies into the host's jar. The ok branch does
not touch the health metrics. -/
theorem fetchLoop_ok_spec (cfg : FetchCfg) :
    ∀ (fuel a t : Nat) (m : Metrics) (s : List (String × String)) (tr : List Ev)
      (out : FetchOut) (status : Nat),
      fetchLoop cfg fuel a t m s tr = some out → out.result = .ok status →
      ∃ n cookies, out.okInfo = some (n, cookies) ∧
        cfg.upstream n = .resp status cookies ∧
        out.store = storeCookiesList cookies s := by
  intro fuel
  induction fuel with
  | zero =>
    intro a t m s tr out status h
    simp [fetchLoop] at h
  | succ fuel ih =>
    intro a t m s tr out status h hres
    simp only [fetchLoop] at h
    by_cases hd : isAborted cfg.abortTick (t + 1) = true
    · rw [if_pos hd] at h
      injection h with h'
      subst h'
      simp at hres
    · rw [if_neg hd] at h
      by_cases habt : cfg.abortTick = some (t + 1)
      · rw [if_pos habt] at h
        dsimp only at h
        cases hc : catchClassify cfg.maxRetries (a + 1)
            (.domAbort "The operation was aborted") with
        | some kind =>
          rw [hc] at h
          exact ih _ _ _ _ _ _ _ h hres
        | none =>
          rw [hc] at h
          injection h with h'
          subst h'
          simp at hres
      · rw [if_neg habt] at h
        cases heff : cfg.upstream (a + 1) with
        | resp st2 cookies =>
          rw [heff] at h
          dsimp only at h
          by_cases hr : retryStatus st2 = true ∧ a + 1 ≤ cfg.maxRetries
          · rw [if_pos hr] at h
            exact ih _ _ _ _ _ _ _ h hres
          · rw [if_neg hr] at h
            by_cases ho : respOk st2 = true
            · rw [if_pos ho] at h
              injection h with h'
              subst h'
              obtain rfl : st2 = status := by simpa using hres
              exact ⟨a + 1, cookies, rfl, heff, rfl⟩
            · rw [if_neg ho] at h
              cases hc : catchClassify cfg.maxRetries (a + 1)
                  (.fetchFailed (a + 1) st2 cfg.url cfg.siteKey (mkFailMsg st2)) with
              | some kind =>
                rw [hc] at h
                exact ih _ _ _ _ _ _ _ h hres
              | none =>
                rw [hc] at h
                injection h with h'
                subst h'
                simp at hres
        | reject e =>
          rw [heff] at h
          dsimp only at h
          cases hc : catchClassify cfg.maxRetries (a + 1) e with
          | some kind =>
            rw [hc] at h
            exact ih _ _ _ _ _ _ _ h hres
          | none =>
            rw [hc] at h
            injection h with h'
            subst h'
            simp at hres

/-- Across a whole `fetchResponse` run — whatever its outcome — the
site's `lastSuccess` never changes: the only metric update the loop
ever performs is `recordScrapeFailure`, which preserves it, and
`recordScrapeSuccess` is never invoked. -/
theorem fetchLoop_lastSuccess_invariant (cfg : FetchCfg) :
    ∀ (fuel a t : Nat) (m : Metrics) (s : List (String × String)) (tr : List Ev)
      (out : FetchOut),
      fetchLoop cfg fuel a t m s tr = some out →
      (metricsGet out.metrics cfg.siteKey).lastSuccess
        = (metricsGet m cfg.siteKey).lastSuccess := by
  intro fuel
  induction fuel with
  | zero =>
    intro a t m s tr out h
    simp [fetchLoop] at h
  | succ fuel ih =>
    intro a t m s tr out h
    simp only [fetchLoop] at h
    by_cases hd : isAborted cfg.abortTick (t + 1) = true
    · rw [if_pos hd] at h
      injection h with h'
      subst h'
      rfl
    · rw [if_neg hd] at h
      by_cases habt : cfg.abortTick = some (t + 1)
      · rw [if_pos habt] at h
        dsimp only at h
        cases hc : catchClassify cfg.maxRetries (a + 1)
            (.domAbort "The operation was aborted") with
        | some kind =>
          rw [hc] at h
          exact ih _ _ _ _ _ _ h
        | none =>
          rw [hc] at h
          injection h with h'
          subst h'
          simp only [metricsGet_recordScrapeFailure]
      · rw [if_neg habt] at h
        cases heff : cfg.upstream (a + 1) with
        | resp st2 cookies =>
          rw [heff] at h
          dsimp only at h
          by_cases hr : retryStatus st2 = true ∧ a + 1 ≤ cfg.maxRetries
          · rw [if_pos hr] at h
            exact ih _ _ _ _ _ _ h
          · rw [if_neg hr] at h
            by_cases ho : respOk st2 = true
            · rw [if_pos ho] at h
              injection h with h'
              subst h'
              rfl
            · rw [if_neg ho] at h
              cases hc : catchClassify cfg.maxRetries (a + 1)
                  (.fetchFailed (a + 1) st2 cfg.url cfg.siteKey (mkFailMsg st2)) with
              | some kind =>
                rw [hc] at h
                rw [ih _ _ _ _ _ _ h]
                simp only [metricsGet_recordScrapeFailure]
              | none =>
                rw [hc] at h
                injection h with h'
                subst h'
                simp only [metricsGet_recordScrapeFailure]
        | reject e =>
          rw [heff] at h
          dsimp only at h
          cases hc : catchClassify cfg.maxRetries (a + 1) e with
          | some kind =>
            rw [hc] at h
            exact ih _ _ _ _ _ _ h
          | none =>
            rw [hc] at h
            injection h with h'
            subst h'
            simp only [metricsGet_recordScrapeFailure]

/-- C6 counterexample: a first-attempt 200 against a site whose record
holds 5 consecutive failures. The fetcher returns the ok response with
its cookie stored, but the site's health record is untouched:
`lastSuccess` stays `none` (never set to the current time) and
`consecutiveFailures` stays 5 (not reset to 0) — the ok path is
`storeCookies(host, response); return response;` and
`recordScrapeSuccess` is never invoked. -/
theorem fetch_ok_counterexample :
    (fetchRun cfgOk [("x", ⟨none, none, 5⟩)] []).map
        (fun o => (resultName o.result, o.store,
          (metricsGet o.metrics "x").lastSuccess,
          (metricsGet o.metrics "x").consecutiveFailures))
      = some ("ok", [("sid", "abc")], none, 5) ∧
    (fetchRun cfgOk [("x", ⟨none, none, 5⟩)] []).map
        (fun o => (metricsGet o.metrics "x").consecutiveFailures) ≠ some 0 := by
  constructor
  · rfl
  · decide

/-- C6 amended: for every `fetchResponse` call whose run ends with an
ok response, the response came from some attempt `n`, and before
returning it the fetcher stores that response's `Set-Cookie` cookies
into the host's jar — but it records no success for the site: the
site's `lastSuccess` is exactly what it was before the call
(`recordScrapeSuccess` has no call site), and `consecutiveFailures` is
not reset by the success. -/
theorem fetch_ok_amended (cfg : FetchCfg) (m0 : Metrics) (s0 : List (String × String))
    (out : FetchOut) (status : Nat)
    (hrun : fetchRun cfg m0 s0 = some out) (hres : out.result = .ok status) :
    ∃ n cookies, out.okInfo = some (n, cookies) ∧
      cfg.upstream n = .resp status cookies ∧
      out.store = storeCookiesList cookies s0 ∧
      (metricsGet out.metrics cfg.siteKey).lastSuccess
        = (metricsGet m0 cfg.siteKey).lastSuccess := by
  obtain ⟨n, cookies, h1, h2, h3⟩ :=
    fetchLoop_ok_spec cfg (cfg.maxRetries + 1) 0 0 m0 s0 [] out status hrun hres
  exact ⟨n, cookies, h1, h2, h3,
    fetchLoop_lastSuccess_invariant cfg (cfg.maxRetries + 1) 0 0 m0 s0 [] out hrun⟩

/-- Witness for C6's amended theorem: the first-attempt 200 run with
one `Set-Cookie` header stores `sid=abc` and leaves the pre-existing
health record (5 consecutive failures, no `lastSuccess`) untouched. -/
theorem fetch_ok_amended_witness :
    ∃ n cookies,
      (⟨.ok 200, [Ev.acquire 0, Ev.fetchAttempt 1 1],
        [("x", ⟨none, none, 5⟩)], [("sid", "abc")], 2,
        some (1, ["sid=abc; Path=/"])⟩ : FetchOut).okInfo = some (n, cookies) ∧
      cfgOk.upstream n = .resp 200 cookies ∧
      (⟨.ok 200, [Ev.acquire 0, Ev.fetchAttempt 1 1],
        [("x", ⟨none, none, 5⟩)], [("sid", "abc")], 2,
        some (1, ["sid=abc; Path=/"])⟩ : FetchOut).store = storeCookiesList cookies [] ∧
      (metricsGet (⟨.ok 200, [Ev.acquire 0, Ev.fetchAttempt 1 1],
        [("x", ⟨none, none, 5⟩)], [("sid", "abc")], 2,
        some (1, ["sid=abc; Path=/"])⟩ : FetchOut).metrics cfgOk.siteKey).lastSuccess
        = (metricsGet [("x", ⟨none, none, 5⟩)] cfgOk.siteKey).lastSuccess :=
  fetch_ok_amended cfgOk [("x", ⟨none, none, 5⟩)] []
    ⟨.ok 200, [Ev.acquire 0, Ev.fetchAttempt 1 1],
      [("x", ⟨none, none, 5⟩)], [("sid", "abc")], 2,
      some (1, ["sid=abc; Path=/"])⟩ 200 rfl rfl
